import Mathlib

/-!
# DateLib: a shallow embedding of `date.c` and its checked properties

The C `int` is 32 bits wide.  An `int` value is an `Int` inside
`[-2^31, 2^31)`; every `int` addition, subtraction or multiplication of the
source that can leave that range is followed by `wrap32`.  `time_t` is 64 bits
wide and never leaves its range for the values that occur here, so it is a
plain `Int`.  C division and remainder truncate toward zero (`Int.tdiv`,
`Int.tmod`).

A call that reads outside an array has no defined result: such a call returns
`none`.
-/

namespace DateLib

/-! ## Machine integers -/

/-- The value a 32-bit two's-complement `int` holds after computing `x`. -/
def wrap32 (x : Int) : Int := (x + 2147483648) % 4294967296 - 2147483648

/-- Smallest `int`. -/
def INT_MIN : Int := -2147483648

/-- Largest `int`. -/
def INT_MAX : Int := 2147483647

/-- The integer `x` is a value of the C type `int`. -/
def isInt (x : Int) : Prop := -2147483648 ≤ x ∧ x ≤ 2147483647

instance (x : Int) : Decidable (isInt x) := by
  unfold isInt; infer_instance

/-- The C truth value of a condition: `1` or `0`. -/
def b2i (b : Bool) : Int := if b then 1 else 0

/-! ## Data model (`date.h`) -/

/-- The struct `Date` of `date.h`: three `int` fields. -/
structure Date where
  m_mday : Int
  m_month : Int
  m_year : Int
  deriving DecidableEq, Repr

/-- What a function of the shape `Date * f(Date *out, ...)` leaves behind:
whether the returned pointer is `out` (`true`) or `NULL` (`false`), and the
contents of `*out` after the call. -/
structure Ret where
  nonnull : Bool
  mem : Date
  deriving DecidableEq, Repr

/-! ## Tables and the month-length lookup (`date.c` lines 9-18) -/

/-- The table `mdays_lookup[2][12]`. -/
def mdays_lookup : List (List Int) :=
  [[31, 28, 31, 30, 31, 30, 31, 31, 30, 31, 30, 31],
   [31, 29, 31, 30, 31, 30, 31, 31, 30, 31, 30, 31]]

/-- The row index of `M_DAYS(y, m)` after macro expansion.  `IS_LEAP_YEAR(y)`
expands, without enclosing parentheses, to `A || (B && C)` with
`A = (((y) % 400) == 0)`, `B = (((y) % 100) != 0)`, `C = (((y) % 4) == 0)`,
so the index expression reads `A || (B && C) == 0 ? 0 : 1`.  In C `==` binds
tighter than `||`, and `?:` binds loosest: the condition of `?:` is
`A || ((B && C) == 0)`. -/
def M_DAYS_row (y : Int) : Nat :=
  if (decide (Int.tmod y 400 = 0)
        || decide (b2i (decide (Int.tmod y 100 ≠ 0) && decide (Int.tmod y 4 = 0)) = 0))
  then 0 else 1

/-- Read `a[i]` of a C array of `int`; `none` when `i` is outside the array. -/
def readAt {α : Type} (a : List α) (i : Int) : Option α :=
  if i < 0 then none else a.get? i.toNat

/-- The macro `M_DAYS(y, m)`: `mdays_lookup[row][m]`.  The column index is
`m` itself. -/
def M_DAYS (y m : Int) : Option Int :=
  match readAt mdays_lookup (M_DAYS_row y) with
  | none => none
  | some row => readAt row m

/-! ## Validation and construction (`date.c` lines 31-38, 196-200) -/

/-- The function `is_valid_date(mday, mon, year)`; `||` evaluates its right
operand only when the left one is false, so the table is read only for
`1 <= mon <= 12` and `mday >= 1`. -/
def is_valid_date (mday mon year : Int) : Option Int :=
  if mon < 1 ∨ mon > 12 then some 0
  else if mday < 1 then some 0
  else
    match M_DAYS year mon with
    | none => none
    | some n => if mday > n then some 0 else some 1

/-- The function `set_date(out, mday, mon, year)`. -/
def set_date (out : Date) (mday mon year : Int) : Option Ret :=
  match is_valid_date mday mon year with
  | none => none
  | some v =>
    if v = 0 then some ⟨false, out⟩
    else some ⟨true, ⟨mday, mon, year⟩⟩

/-! ## Comparison (`date.c` lines 125-133) -/

/-- The function `date_cmp(p1, p2)`; each difference is an `int` subtraction. -/
def date_cmp (d1 d2 : Date) : Int :=
  if d1.m_year ≠ d2.m_year then wrap32 (d1.m_year - d2.m_year)
  else if d1.m_month ≠ d2.m_month then wrap32 (d1.m_month - d2.m_month)
  else if d1.m_mday ≠ d2.m_mday then wrap32 (d1.m_mday - d2.m_mday)
  else 0

/-! ## Weekday (`date.c` lines 109-112, 202-212) -/

/-- The function `day_of_the_week(d, m, y)`.  The sum is evaluated left to
right in `int`; `t[m - 1]` is a read of the 12-entry local array. -/
def day_of_the_week (d m y : Int) : Option Int :=
  let t : List Int := [0, 3, 2, 5, 0, 3, 5, 1, 4, 6, 2, 4]
  let y := if m < 3 then wrap32 (y - 1) else y
  match readAt t (wrap32 (m - 1)) with
  | none => none
  | some tm =>
    some (Int.tmod
      (wrap32 (wrap32 (wrap32 (wrap32 (wrap32 (y + Int.tdiv y 4) - Int.tdiv y 100)
        + Int.tdiv y 400) + tm) + d)) 7)

/-- The function `get_weekday(in)`. -/
def get_weekday (a : Date) : Option Int :=
  day_of_the_week a.m_mday a.m_month a.m_year

/-! ## The C library calendar: `mktime` and `localtime`

Both are library functions outside the repository.  They are modelled as the
conversion between a proleptic Gregorian calendar date at midnight and the
seconds since 1 January 1970, without time zone or daylight saving. -/

/-- The fields of `struct tm` that `date.c` writes or reads. -/
structure Tm where
  tm_mday : Int
  tm_mon : Int
  tm_year : Int
  deriving DecidableEq, Repr

/-- Number of days from 1 January 1970 to day `d` of month `m` (1..12) of
year `y`, by counting from 1 March of year 0 in whole 400-year eras. -/
def days_from_civil (y m d : Int) : Int :=
  let y1 := if m ≤ 2 then y - 1 else y
  let era := y1 / 400
  let yoe := y1 % 400
  let mp := (m + 9) % 12
  let doy := (153 * mp + 2) / 5 + d - 1
  let doe := yoe * 365 + yoe / 4 - yoe / 100 + doy
  era * 146097 + doe - 719468

/-- The calendar date that lies `z` days after 1 January 1970: the era of 400
years, then the century, the 4-year cycle and the year inside it, counted
from 1 March. -/
def civil_from_days (z : Int) : Date :=
  let z0 := z + 719468
  let era := z0 / 146097
  let doe := z0 % 146097
  let c := min (doe / 36524) 3
  let doc := doe - c * 36524
  let q := doc / 1461
  let doq := doc % 1461
  let yy := min (doq / 365) 3
  let doy := doq - yy * 365
  let mp := (5 * doy + 2) / 153
  let d := doy - (153 * mp + 2) / 5 + 1
  let m := if mp < 10 then mp + 3 else mp - 9
  let y := era * 400 + c * 100 + q * 4 + yy
  ⟨d, m, if m ≤ 2 then y + 1 else y⟩

/-- Day number of a date: days from 1 January 1970. -/
def day_number (a : Date) : Int := days_from_civil a.m_year a.m_month a.m_mday

/-- The library function `mktime` on a `struct tm` whose time of day is
00:00:00: seconds from the epoch to that midnight.  A month outside 0..11 is
carried into the year, a day outside the month is counted on linearly. -/
def mktime (tm : Tm) : Int :=
  days_from_civil (tm.tm_year + 1900 + tm.tm_mon / 12) (tm.tm_mon % 12 + 1) tm.tm_mday * 86400

/-- The library function `localtime`: the calendar date of the day that
contains the instant `t`; `none` (a NULL result) when the year does not fit
the `int` field `tm_year`. -/
def localtime (t : Int) : Option Tm :=
  let c := civil_from_days (t / 86400)
  if isInt (c.m_year - 1900) then some ⟨c.m_mday, c.m_month - 1, c.m_year - 1900⟩
  else none

/-! ## Date arithmetic (`date.c` lines 135-181) -/

/-- The function `get_date_diff(d1, d2)`; `none` stands for the call to
`exit(-1)` taken when either instant is negative. -/
def get_date_diff (d1 d2 : Date) : Option Int :=
  let tm1 : Tm := ⟨d1.m_mday, wrap32 (d1.m_month - 1), wrap32 (d1.m_year - 1900)⟩
  let tm2 : Tm := ⟨d2.m_mday, wrap32 (d2.m_month - 1), wrap32 (d2.m_year - 1900)⟩
  let t1 := mktime tm1
  let t2 := mktime tm2
  if t1 < 0 ∨ t2 < 0 then none
  else some (wrap32 (Int.tdiv (t2 - t1) (60 * 60 * 24)))

/-- The function `n_days_after(out, in, n)`: the contents of `*out` after the
call (the returned pointer is always `out`, and `*out` is written whatever it
held before); `none` when `localtime` returns NULL and the code reads through
it.  The product `n * 60 * 60 * 24` is an `int` product. -/
def n_days_after (inp : Date) (n : Int) : Option Date :=
  let tm1 : Tm := ⟨inp.m_mday, wrap32 (inp.m_month - 1), wrap32 (inp.m_year - 1900)⟩
  let t1 := mktime tm1
  let t1 := t1 + wrap32 (wrap32 (wrap32 (n * 60) * 60) * 24)
  match localtime t1 with
  | none => none
  | some tmp1 =>
    some ⟨tmp1.tm_mday, wrap32 (tmp1.tm_mon + 1), wrap32 (tmp1.tm_year + 1900)⟩

/-! ## Parsing (`date.c` lines 41-48)

A C string is the list of the characters that precede its terminating NUL. -/

/-- The library predicate `isspace` in the C locale. -/
def isspace (c : Char) : Bool :=
  c.toNat = 32 || (9 ≤ c.toNat && c.toNat ≤ 13)

/-- The library predicate `isdigit`. -/
def isdigit (c : Char) : Bool :=
  48 ≤ c.toNat && c.toNat ≤ 57

/-- The value of the longest prefix of decimal digits of `s`, continuing the
value `acc` read so far. -/
def digits_value (acc : Int) : List Char → Int
  | [] => acc
  | c :: cs => if isdigit c then digits_value (acc * 10 + (c.toNat - 48 : Nat)) cs else acc

/-- The library function `strtol(s, NULL, 10)` with a 64-bit `long`: leading
white space, an optional sign, decimal digits; the result is clamped to the
range of `long`. -/
def strtol (s : List Char) : Int :=
  let s := s.dropWhile isspace
  let v : Int :=
    match s with
    | [] => 0
    | c :: cs =>
      if c.toNat = 45 then -(digits_value 0 cs)
      else if c.toNat = 43 then digits_value 0 cs
      else digits_value 0 (c :: cs)
  max (-9223372036854775808) (min v 9223372036854775807)

/-- The library function `atoi`: `(int) strtol(s, NULL, 10)`. -/
def atoi (s : List Char) : Int := wrap32 (strtol s)

/-- The function `set_date_by_string(out, str)`.  The pointers `str + 3` and
`str + 6` lie inside the string only when it has at least 6 characters;
otherwise the call reads past the terminating NUL and returns `none`. -/
def set_date_by_string (out : Date) (str : List Char) : Option Ret :=
  if str.length < 6 then none
  else
    let mday := atoi str
    let month := atoi (str.drop 3)
    let year := atoi (str.drop 6)
    set_date out mday month year

/-! ## Mutators and accessors (`date.c` lines 82-122) -/

/-- The function `set_year(inout, y)`. -/
def set_year (inout : Date) (y : Int) : Option Ret :=
  set_date inout inout.m_mday inout.m_month y

/-- The function `set_month(inout, m)`. -/
def set_month (inout : Date) (m : Int) : Option Ret :=
  set_date inout inout.m_mday m inout.m_year

/-- The function `set_month_day(inout, md)`. -/
def set_month_day (inout : Date) (md : Int) : Option Ret :=
  set_date inout md inout.m_month inout.m_year

/-- The function `get_year(in)`. -/
def get_year (a : Date) : Int := a.m_year

/-- The function `get_month(in)`. -/
def get_month (a : Date) : Int := a.m_month

/-- The function `get_month_day(in)`. -/
def get_month_day (a : Date) : Int := a.m_mday

/-- The function `get_year_day(in)`: its body is `return YEAR(in);`. -/
def get_year_day (a : Date) : Int := a.m_year

/-! ## The same functions as the compiled code runs them

A read outside a row of `mdays_lookup` is not defined by C, yet the compiled
code does read an `int` at that address and goes on.  In the definitions of
this section such a read yields `g`, an `int` about which nothing is
assumed. -/

/-- The macro `M_DAYS(y, m)` where a read outside the table yields `g`. -/
def M_DAYS_mem (g y m : Int) : Int :=
  match M_DAYS y m with
  | none => g
  | some n => n

/-- The function `is_valid_date(mday, mon, year)` where a read outside the
table yields `g`. -/
def is_valid_date_mem (g mday mon year : Int) : Int :=
  if mon < 1 ∨ mon > 12 then 0
  else if mday < 1 ∨ mday > M_DAYS_mem g year mon then 0
  else 1

/-- The function `set_date(out, mday, mon, year)` where a read outside the
table yields `g`. -/
def set_date_mem (g : Int) (out : Date) (mday mon year : Int) : Ret :=
  if is_valid_date_mem g mday mon year = 0 then ⟨false, out⟩
  else ⟨true, ⟨mday, mon, year⟩⟩

/-- The function `set_year(inout, y)` where a read outside the table yields
`g`. -/
def set_year_mem (g : Int) (inout : Date) (y : Int) : Ret :=
  set_date_mem g inout inout.m_mday inout.m_month y

/-- The function `set_month(inout, m)` where a read outside the table yields
`g`. -/
def set_month_mem (g : Int) (inout : Date) (m : Int) : Ret :=
  set_date_mem g inout inout.m_mday m inout.m_year

/-- The function `set_month_day(inout, md)` where a read outside the table
yields `g`. -/
def set_month_day_mem (g : Int) (inout : Date) (md : Int) : Ret :=
  set_date_mem g inout md inout.m_month inout.m_year

/-! ## Random dates (`date.c` lines 67-80) -/

/-- How a call of `set_random_date_range` ends: the process exits, the
behaviour is undefined (division by zero, read outside the table), or the
call returns with `*inout` holding a date. -/
inductive Outcome where
  | exited : Outcome
  | undefined : Outcome
  | returned (d : Date) : Outcome
  deriving DecidableEq, Repr

/-- The function `set_random_date_range(inout, min_year, max_year)`; `r1`,
`r2`, `r3` are the values of the three calls of `rand()`, in order. -/
def set_random_date_range (min_year max_year r1 r2 r3 : Int) : Outcome :=
  if wrap32 (max_year - min_year) < 0 then Outcome.exited
  else if wrap32 (max_year - min_year) = 0 then Outcome.undefined
  else
    let year := wrap32 (min_year + Int.tmod r1 (wrap32 (max_year - min_year)))
    let mon := wrap32 (1 + Int.tmod r2 12)
    match M_DAYS year mon with
    | none => Outcome.undefined
    | some n =>
      if n = 0 then Outcome.undefined
      else Outcome.returned ⟨wrap32 (1 + Int.tmod r3 n), mon, year⟩

/-! ## Printing (`date.c` lines 20-26, 191-194) -/

/-- The table `months[13]`. -/
def months : List String :=
  ["", "Ocak", "Subat", "Mart", "Nisan", "Mayis", "Haziran", "Temmuz", "Agustos",
   "Eylul", "Ekim", "Kasim", "Aralik"]

/-- The table `wdays[7]`. -/
def wdays : List String :=
  ["Pazar", "Pazartesi", "Sali", "Carsamba", "Persembe", "Cuma", "Cumartesi"]

/-- The text `printf` writes for `%d`. -/
def fmt_d (x : Int) : String :=
  if x < 0 then "-" ++ Nat.repr x.natAbs else Nat.repr x.natAbs

/-- The function `print_date(in)`: the text written to standard output;
`none` when an index leaves its table. -/
def print_date (a : Date) : Option String :=
  match readAt months a.m_month with
  | none => none
  | some mo =>
    match get_weekday a with
    | none => none
    | some w =>
      match readAt wdays w with
      | none => none
      | some wd => some (fmt_d a.m_mday ++ " " ++ mo ++ " " ++ fmt_d a.m_year ++ ", " ++ wd)

/-! ## The calendar of the specification -/

/-- The leap-year rule in the words of the specification:
`is_leap(y) = (y % 400 == 0) or (y % 4 == 0 and y % 100 != 0)`. -/
def spec_is_leap (y : Int) : Bool :=
  decide (y % 400 = 0) || (decide (y % 4 = 0) && decide (y % 100 ≠ 0))

/-- The month lengths in the words of the specification: the Gregorian table
31,28,31,30,31,30,31,31,30,31,30,31 with February = 29 in a leap year. -/
def spec_days_in_month (y m : Int) : Int :=
  if m = 2 then (if spec_is_leap y then 29 else 28)
  else if m = 4 ∨ m = 6 ∨ m = 9 ∨ m = 11 then 30
  else 31

/-- The date invariant of the specification:
`1 ≤ month ≤ 12` and `1 ≤ day ≤ days_in_month(year, month)`. -/
def spec_valid (d : Date) : Prop :=
  1 ≤ d.m_month ∧ d.m_month ≤ 12 ∧ 1 ≤ d.m_mday ∧
    d.m_mday ≤ spec_days_in_month d.m_year d.m_month

instance (d : Date) : Decidable (spec_valid d) := by
  unfold spec_valid; infer_instance

/-- Lexicographic "earlier than" on `(year, month, day)`. -/
def spec_earlier (a b : Date) : Prop :=
  a.m_year < b.m_year ∨
    (a.m_year = b.m_year ∧ (a.m_month < b.m_month ∨
      (a.m_month = b.m_month ∧ a.m_mday < b.m_mday)))

instance (a b : Date) : Decidable (spec_earlier a b) := by
  unfold spec_earlier; infer_instance

/-- The calendar successor of a date: the next day of the month, else the
first day of the next month, else 1 January of the next year. -/
def spec_successor (a : Date) : Date :=
  if a.m_mday < spec_days_in_month a.m_year a.m_month then
    ⟨a.m_mday + 1, a.m_month, a.m_year⟩
  else if a.m_month < 12 then ⟨1, a.m_month + 1, a.m_year⟩
  else ⟨1, 1, a.m_year + 1⟩

/-- The text at a field offset begins a decimal integer: after optional white
space and an optional sign there is a decimal digit. -/
def begins_integer (s : List Char) : Bool :=
  match s.dropWhile isspace with
  | [] => false
  | c :: cs =>
    if c.toNat = 45 ∨ c.toNat = 43 then
      (match cs with
       | [] => false
       | c2 :: _ => isdigit c2)
    else isdigit c

/-- The day of the year in the words of the claim: the lengths of the months
that precede the month `m`, plus the day of the month. -/
def spec_year_day (a : Date) : Int :=
  ((List.range (a.m_month.toNat - 1)).map
    (fun k => spec_days_in_month a.m_year ((k : Int) + 1))).sum + a.m_mday

/-! ## Arithmetic helper lemmas -/

theorem tdiv_pos_den (a b : Int) (hb : 0 < b) :
    Int.tdiv a b = if 0 ≤ a then a / b else -((-a) / b) := by
  split
  · exact Int.tdiv_eq_ediv (by assumption) (by omega)
  · have h1 : Int.tdiv (-a) b = (-a) / b := Int.tdiv_eq_ediv (by omega) (by omega)
    rw [← h1, Int.neg_tdiv]; simp

theorem tmod_pos_den (a b : Int) (hb : 0 < b) :
    Int.tmod a b = if 0 ≤ a then a % b else -((-a) % b) := by
  rw [Int.tmod_def, tdiv_pos_den a b hb]
  split
  · rw [Int.emod_def]
  · rw [Int.emod_def]; ring

theorem tmod_eq_zero_iff (a b : Int) : Int.tmod a b = 0 ↔ a % b = 0 := by
  constructor
  · intro h
    exact Int.emod_eq_zero_of_dvd (Int.dvd_of_tmod_eq_zero h)
  · intro h
    exact Int.tmod_eq_zero_of_dvd (Int.dvd_of_emod_eq_zero h)

/-- The row that the expanded macro selects: the leap row exactly for the
years divisible by 4 and not by 100. -/
theorem M_DAYS_row_eq (y : Int) :
    M_DAYS_row y = if y % 4 = 0 ∧ y % 100 ≠ 0 then 1 else 0 := by
  unfold M_DAYS_row b2i
  simp only [tmod_eq_zero_iff, ne_eq]
  by_cases h4 : y % 4 = 0 <;> by_cases h100 : y % 100 = 0 <;>
    by_cases h400 : y % 400 = 0 <;> simp [h4, h100, h400]
  all_goals omega

theorem M_DAYS_row_lt_two (y : Int) : M_DAYS_row y < 2 := by
  rw [M_DAYS_row_eq]; split <;> decide

/-- The lookup `M_DAYS(y, m)` as a read of one of the two rows. -/
theorem M_DAYS_eq (y m : Int) :
    M_DAYS y m =
      readAt (if y % 4 = 0 ∧ y % 100 ≠ 0
        then [31, 29, 31, 30, 31, 30, 31, 31, 30, 31, 30, 31]
        else [31, 28, 31, 30, 31, 30, 31, 31, 30, 31, 30, 31]) m := by
  unfold M_DAYS
  rw [M_DAYS_row_eq]
  by_cases h : y % 4 = 0 ∧ y % 100 ≠ 0
  · rw [if_pos h, if_pos h]; rfl
  · rw [if_neg h, if_neg h]; rfl

/-! ## Lemmas on `wrap32` -/

theorem wrap32_of_range (x : Int) (h1 : -2147483648 ≤ x) (h2 : x ≤ 2147483647) :
    wrap32 x = x := by
  unfold wrap32; omega

theorem spec_is_leap_iff (y : Int) :
    spec_is_leap y = true ↔ (y % 4 = 0 ∧ (y % 100 ≠ 0 ∨ y % 400 = 0)) := by
  unfold spec_is_leap
  simp only [Bool.or_eq_true, Bool.and_eq_true, decide_eq_true_eq]
  omega

theorem spec_days_in_month_le (y m : Int) : spec_days_in_month y m ≤ 31 := by
  unfold spec_days_in_month
  split_ifs <;> omega

theorem spec_days_in_month_ge (y m : Int) : 28 ≤ spec_days_in_month y m := by
  unfold spec_days_in_month
  split_ifs <;> omega

/-- The day number grows by one from a valid date to its calendar successor:
`day_number` counts the days of the proleptic Gregorian calendar. -/
theorem day_number_successor (a : Date) (hv : spec_valid a) :
    day_number (spec_successor a) = day_number a + 1 := by
  obtain ⟨d, m, y⟩ := a
  unfold spec_valid at hv
  simp only at hv
  obtain ⟨hm1, hm12, hd1, hd⟩ := hv
  have hleap := spec_is_leap_iff y
  unfold spec_successor
  simp only
  split_ifs with h1 h2
  · simp only [day_number, days_from_civil]
    split_ifs <;> omega
  · unfold spec_days_in_month at hd h1
    have hm : m = 1 ∨ m = 2 ∨ m = 3 ∨ m = 4 ∨ m = 5 ∨ m = 6 ∨ m = 7 ∨ m = 8 ∨ m = 9 ∨
        m = 10 ∨ m = 11 := by omega
    rcases hm with h | h | h | h | h | h | h | h | h | h | h <;> subst h <;>
      simp only [day_number, days_from_civil] <;> norm_num at hd h1 ⊢
    all_goals (try split_ifs at hd h1 with hl)
    all_goals (try simp only [hleap] at hl)
    all_goals omega
  · have hm : m = 12 := by omega
    subst hm
    unfold spec_days_in_month at hd h1
    simp only [day_number, days_from_civil]
    norm_num at hd h1 ⊢
    omega

/-- The calendar successor of a valid date is a valid date. -/
theorem spec_successor_valid (a : Date) (hv : spec_valid a) :
    spec_valid (spec_successor a) := by
  obtain ⟨d, m, y⟩ := a
  unfold spec_valid at hv ⊢
  simp only at hv
  obtain ⟨hm1, hm12, hd1, hd⟩ := hv
  unfold spec_successor
  simp only
  split_ifs with h1 h2
  · simp only
    omega
  · simp only
    have := spec_days_in_month_ge y (m + 1)
    omega
  · simp only
    have := spec_days_in_month_ge (y + 1) 1
    omega

/-! ## Lemmas on the weekday formula -/

theorem div4_split (x : Int) : x / 4 = 100 * (x / 400) + x % 400 / 4 := by omega

theorem div100_split (x : Int) : x / 100 = 4 * (x / 400) + x % 400 / 100 := by omega

theorem doy_month_bounds (doy : Int) (h0 : 0 ≤ doy) (h1 : doy ≤ 365) :
    0 ≤ (5 * doy + 2) / 153 ∧ (5 * doy + 2) / 153 ≤ 11 := by omega

theorem day_number_civil_from_days (z : Int) : day_number (civil_from_days z) = z := by
  unfold day_number civil_from_days days_from_civil
  simp only
  generalize hz0 : z + 719468 = z0
  have hz : z = z0 - 719468 := by omega
  subst hz
  generalize hera : z0 / 146097 = era
  generalize hdoe : z0 % 146097 = doe
  have hdoe0 : 0 ≤ doe := by omega
  have hdoe1 : doe ≤ 146096 := by omega
  have hz0' : z0 = era * 146097 + doe := by omega
  generalize hc : min (doe / 36524) 3 = c
  have hc0 : 0 ≤ c := by omega
  have hc3 : c ≤ 3 := by omega
  generalize hdoc : doe - c * 36524 = doc
  have hdoc0 : 0 ≤ doc := by omega
  have hdoc1 : doc ≤ 36524 := by omega
  generalize hq : doc / 1461 = q
  generalize hdoq : doc % 1461 = doq
  have hq0 : 0 ≤ q := by omega
  have hq24 : q ≤ 24 := by omega
  have hdoq0 : 0 ≤ doq := by omega
  have hdoq1 : doq ≤ 1460 := by omega
  have hdocq : doc = q * 1461 + doq := by omega
  generalize hyy : min (doq / 365) 3 = yy
  have hyy0 : 0 ≤ yy := by omega
  have hyy3 : yy ≤ 3 := by omega
  generalize hdoy : doq - yy * 365 = doy
  have hdoy0 : 0 ≤ doy := by omega
  have hdoy1 : doy ≤ 365 := by omega
  generalize hmp : (5 * doy + 2) / 153 = mp
  have hmp0 : 0 ≤ mp := by omega
  have hmp11 : mp ≤ 11 := by omega
  generalize hm : (if mp < 10 then mp + 3 else mp - 9) = m
  have hmmp : (m + 9) % 12 = mp := by
    split_ifs at hm <;> omega
  have hm2 : m ≤ 2 ↔ 10 ≤ mp := by
    split_ifs at hm <;> omega
  rw [hmmp]
  generalize hyoe : c * 100 + q * 4 + yy = yoe
  have hyoe0 : 0 ≤ yoe := by omega
  have hyoe1 : yoe ≤ 399 := by omega
  have hY : (if m ≤ 2 then (if m ≤ 2 then era * 400 + c * 100 + q * 4 + yy + 1
        else era * 400 + c * 100 + q * 4 + yy) - 1
      else if m ≤ 2 then era * 400 + c * 100 + q * 4 + yy + 1
        else era * 400 + c * 100 + q * 4 + yy) = era * 400 + yoe := by
    split_ifs <;> omega
  rw [hY]
  have e1 : (era * 400 + yoe) / 400 = era := by omega
  have e2 : (era * 400 + yoe) % 400 = yoe := by omega
  rw [e1, e2]
  have e3 : yoe / 4 = 25 * c + q := by omega
  have e4 : yoe / 100 = c := by omega
  rw [e3, e4]
  omega
theorem civil_from_days_valid (z : Int) : spec_valid (civil_from_days z) := by
  unfold spec_valid civil_from_days
  simp only
  generalize hz0 : z + 719468 = z0
  generalize hera : z0 / 146097 = era
  generalize hdoe : z0 % 146097 = doe
  have hdoe0 : 0 ≤ doe := by omega
  have hdoe1 : doe ≤ 146096 := by omega
  generalize hc : min (doe / 36524) 3 = c
  have hc0 : 0 ≤ c := by omega
  have hc3 : c ≤ 3 := by omega
  generalize hdoc : doe - c * 36524 = doc
  have hdoc0 : 0 ≤ doc := by omega
  have hdoc1 : doc ≤ 36524 := by omega
  have hdoc2 : c < 3 → doc ≤ 36523 := by omega
  generalize hq : doc / 1461 = q
  generalize hdoq : doc % 1461 = doq
  have hq0 : 0 ≤ q := by omega
  have hq24 : q ≤ 24 := by omega
  have hdoq0 : 0 ≤ doq := by omega
  have hdoq1 : doq ≤ 1460 := by omega
  have hdoq2 : q = 24 → c < 3 → doq ≤ 1459 := by omega
  generalize hyy : min (doq / 365) 3 = yy
  have hyy0 : 0 ≤ yy := by omega
  have hyy3 : yy ≤ 3 := by omega
  generalize hdoy : doq - yy * 365 = doy
  have hdoy0 : 0 ≤ doy := by omega
  have hdoy1 : doy ≤ 365 := by omega
  have hdoy2 : doy = 365 → yy = 3 ∧ doq = 1460 := by omega
  generalize hmp : (5 * doy + 2) / 153 = mp
  have hmp0 : 0 ≤ mp := by omega
  have hmp11 : mp ≤ 11 := by omega
  generalize hd : doy - (153 * mp + 2) / 5 + 1 = d
  have hd1 : 1 ≤ d := by omega
  generalize hY : era * 400 + c * 100 + q * 4 + yy = Y
  have hcases : mp = 0 ∨ mp = 1 ∨ mp = 2 ∨ mp = 3 ∨ mp = 4 ∨ mp = 5 ∨ mp = 6 ∨ mp = 7 ∨
      mp = 8 ∨ mp = 9 ∨ mp = 10 ∨ mp = 11 := by omega
  rcases hcases with h | h | h | h | h | h | h | h | h | h | h | h <;> subst h <;>
    norm_num [spec_days_in_month]
  all_goals (try omega)
  refine ⟨hd1, ?_⟩
  have hleap := spec_is_leap_iff (Y + 1)
  split_ifs with hl
  · omega
  · rw [hleap] at hl
    omega
theorem mono153 (a b : Int) (h : a ≤ b) : (153 * a + 2) / 5 ≤ (153 * b + 2) / 5 := by omega

theorem year_days_mono (a b : Int) (h : a ≤ b) :
    365 * a + a / 4 - a / 100 + a / 400 ≤ 365 * b + b / 4 - b / 100 + b / 400 := by
  omega

theorem year_days_step (x : Int) :
    365 * x + x / 4 - x / 100 + x / 400 + 365 ≤
      365 * (x + 1) + (x + 1) / 4 - (x + 1) / 100 + (x + 1) / 400 ∧
    (((x + 1) % 4 = 0 ∧ ((x + 1) % 100 ≠ 0 ∨ (x + 1) % 400 = 0)) →
      365 * x + x / 4 - x / 100 + x / 400 + 366 ≤
        365 * (x + 1) + (x + 1) / 4 - (x + 1) / 100 + (x + 1) / 400) := by
  omega

theorem days_from_civil_eq (y m d : Int) :
    days_from_civil y m d =
      365 * (if m ≤ 2 then y - 1 else y) + (if m ≤ 2 then y - 1 else y) / 4
        - (if m ≤ 2 then y - 1 else y) / 100 + (if m ≤ 2 then y - 1 else y) / 400
        + (153 * ((m + 9) % 12) + 2) / 5 + d - 719469 := by
  unfold days_from_civil
  simp only
  rw [div4_split (if m ≤ 2 then y - 1 else y), div100_split (if m ≤ 2 then y - 1 else y)]
  omega

/-- In a valid date the day fits the month, in the coordinates that count
months from March. -/
theorem valid_day_bound (d m y : Int) (hv : spec_valid ⟨d, m, y⟩) :
    ((m + 9) % 12 ≤ 10 →
      (153 * ((m + 9) % 12) + 2) / 5 + d ≤ (153 * ((m + 9) % 12 + 1) + 2) / 5) ∧
    ((m + 9) % 12 = 11 →
      d ≤ 28 ∨ (d = 29 ∧ (y % 4 = 0 ∧ (y % 100 ≠ 0 ∨ y % 400 = 0)))) := by
  unfold spec_valid at hv
  simp only at hv
  obtain ⟨hm1, hm12, hd1, hd⟩ := hv
  have hleap := spec_is_leap_iff y
  unfold spec_days_in_month at hd
  have hm : m = 1 ∨ m = 2 ∨ m = 3 ∨ m = 4 ∨ m = 5 ∨ m = 6 ∨ m = 7 ∨ m = 8 ∨ m = 9 ∨
      m = 10 ∨ m = 11 ∨ m = 12 := by omega
  rcases hm with h | h | h | h | h | h | h | h | h | h | h | h <;> subst h <;>
    norm_num at hd ⊢
  all_goals (try omega)
  split_ifs at hd with hl
  · rw [hleap] at hl
    omega
  · omega

theorem day_number_lt_of_earlier (a b : Date) (ha : spec_valid a) (hb : spec_valid b)
    (h : spec_earlier a b) : day_number a < day_number b := by
  obtain ⟨da, ma, ya⟩ := a
  obtain ⟨db, mb, yb⟩ := b
  have hba := valid_day_bound da ma ya ha
  unfold spec_valid at ha hb
  unfold spec_earlier at h
  simp only at ha hb h
  obtain ⟨ha1, ha12, had1, -⟩ := ha
  obtain ⟨hb1, hb12, hbd1, -⟩ := hb
  unfold day_number
  simp only
  rw [days_from_civil_eq, days_from_civil_eq]
  generalize hmpa : (ma + 9) % 12 = mpa at hba ⊢
  generalize hmpb : (mb + 9) % 12 = mpb
  generalize hy1a : (if ma ≤ 2 then ya - 1 else ya) = xa
  generalize hy1b : (if mb ≤ 2 then yb - 1 else yb) = xb
  have hmpa0 : 0 ≤ mpa ∧ mpa ≤ 11 := by omega
  have hmpb0 : 0 ≤ mpb ∧ mpb ≤ 11 := by omega
  -- the order carries over to the coordinates counted from March
  have hord : xa < xb ∨ (xa = xb ∧ (mpa < mpb ∨ (mpa = mpb ∧ da < db))) := by
    split_ifs at hy1a hy1b <;> omega
  have hyear : ya = if mpa ≤ 9 then xa else xa + 1 := by
    split_ifs at hy1a <;> split_ifs <;> omega
  -- the last day of the year counted from March
  have hlast : 365 * xa + xa / 4 - xa / 100 + xa / 400 + (153 * mpa + 2) / 5 + da
      ≤ 365 * (xa + 1) + (xa + 1) / 4 - (xa + 1) / 100 + (xa + 1) / 400 := by
    have hstep := year_days_step xa
    by_cases h11 : mpa = 11
    · subst h11
      have h2 := hba.2 rfl
      have hya : ya = xa + 1 := by omega
      subst hya
      rcases h2 with h2 | ⟨h2, h3⟩
      · omega
      · have := hstep.2 h3
        omega
    · have h2 := hba.1 (by omega)
      have h3 := mono153 (mpa + 1) 11 (by omega)
      omega
  rcases hord with hlt | ⟨heq, hlt | ⟨heq2, hlt⟩⟩
  · have hmono := year_days_mono (xa + 1) xb (by omega)
    have h3 := mono153 0 mpb (by omega)
    omega
  · subst heq
    have h2 := hba.1 (by omega)
    have h3 := mono153 (mpa + 1) mpb (by omega)
    omega
  · subst heq heq2
    omega
theorem date_trichotomy (a b : Date) : a = b ∨ spec_earlier a b ∨ spec_earlier b a := by
  obtain ⟨da, ma, ya⟩ := a
  obtain ⟨db, mb, yb⟩ := b
  unfold spec_earlier
  simp only [Date.mk.injEq]
  omega

/-- The date of the day number of a valid date is that date. -/
theorem civil_from_days_day_number (a : Date) (hv : spec_valid a) :
    civil_from_days (day_number a) = a := by
  have hb := civil_from_days_valid (day_number a)
  have hr := day_number_civil_from_days (day_number a)
  rcases date_trichotomy (civil_from_days (day_number a)) a with h | h | h
  · exact h
  · have := day_number_lt_of_earlier _ _ hb hv h
    omega
  · have := day_number_lt_of_earlier _ _ hv hb h
    omega

/-- The instant `mktime` returns for the `struct tm` that the code fills from
a date whose month is in 1..12 and whose year minus 1900 is an `int`. -/
theorem mktime_of_date (a : Date) (hm1 : 1 ≤ a.m_month) (hm12 : a.m_month ≤ 12)
    (hy1 : -2147481748 ≤ a.m_year) (hy2 : a.m_year ≤ 2147483647) :
    mktime ⟨a.m_mday, wrap32 (a.m_month - 1), wrap32 (a.m_year - 1900)⟩
      = day_number a * 86400 := by
  unfold mktime day_number
  simp only
  rw [wrap32_of_range (a.m_month - 1) (by omega) (by omega),
    wrap32_of_range (a.m_year - 1900) (by omega) (by omega)]
  have e1 : a.m_year - 1900 + 1900 + (a.m_month - 1) / 12 = a.m_year := by omega
  have e2 : (a.m_month - 1) % 12 + 1 = a.m_month := by omega
  rw [e1, e2]

/-- The `int` product `n * 60 * 60 * 24` is the number of seconds of `n` days
when `n` is between -24855 and 24855. -/
theorem seconds_of_days (n : Int) (h1 : -24855 ≤ n) (h2 : n ≤ 24855) :
    wrap32 (wrap32 (wrap32 (n * 60) * 60) * 24) = n * 86400 := by
  rw [wrap32_of_range (n * 60) (by omega) (by omega),
    wrap32_of_range (n * 60 * 60) (by omega) (by omega),
    wrap32_of_range (n * 60 * 60 * 24) (by omega) (by omega)]
  omega

/-- The date `n_days_after` writes: the date of the shifted day number, when
no `int` of the computation leaves its range. -/
theorem n_days_after_eq (a : Date) (n : Int) (hm1 : 1 ≤ a.m_month) (hm12 : a.m_month ≤ 12)
    (hy1 : -2147481748 ≤ a.m_year) (hy2 : a.m_year ≤ 2147483647)
    (hn1 : -24855 ≤ n) (hn2 : n ≤ 24855)
    (hc1 : -2147481748 ≤ (civil_from_days (day_number a + n)).m_year)
    (hc2 : (civil_from_days (day_number a + n)).m_year ≤ 2147483647) :
    n_days_after a n = some (civil_from_days (day_number a + n)) := by
  have hv := civil_from_days_valid (day_number a + n)
  unfold n_days_after
  simp only
  rw [mktime_of_date a hm1 hm12 hy1 hy2, seconds_of_days n hn1 hn2]
  unfold localtime
  simp only
  have e : (day_number a * 86400 + n * 86400) / 86400 = day_number a + n := by omega
  rw [e]
  generalize civil_from_days (day_number a + n) = c at hv hc1 hc2 ⊢
  obtain ⟨d, m, y⟩ := c
  unfold spec_valid at hv
  simp only at hv hc1 hc2 ⊢
  have hi : isInt (y - 1900) := by unfold isInt; omega
  rw [if_pos hi]
  simp only
  rw [wrap32_of_range (m - 1 + 1) (by omega) (by omega),
    wrap32_of_range (y - 1900 + 1900) (by omega) (by omega)]
  simp
theorem day_number_le_of_not_earlier (a b : Date) (ha : spec_valid a) (hb : spec_valid b)
    (h : ¬ spec_earlier b a) : day_number a ≤ day_number b := by
  rcases date_trichotomy a b with h1 | h1 | h1
  · rw [h1]
  · exact le_of_lt (day_number_lt_of_earlier a b ha hb h1)
  · exact absurd h1 h

/-- A valid date of the year 1970 or later has a day number that is not
negative. -/
theorem day_number_nonneg (a : Date) (hv : spec_valid a) (hy : 1970 ≤ a.m_year) :
    0 ≤ day_number a := by
  have h0 : day_number ⟨1, 1, 1970⟩ = 0 := by decide
  have hle := day_number_le_of_not_earlier ⟨1, 1, 1970⟩ a (by decide) hv (by
    unfold spec_valid at hv
    unfold spec_earlier
    simp only
    omega)
  omega

/-- A valid date with a day number that is not negative lies in 1970 or later. -/
theorem year_ge_of_day_number_nonneg (a : Date) (hv : spec_valid a) (h : 0 ≤ day_number a) :
    1970 ≤ a.m_year := by
  by_contra hlt
  have h0 : day_number ⟨1, 1, 1970⟩ = 0 := by decide
  have := day_number_lt_of_earlier a ⟨1, 1, 1970⟩ hv (by decide) (by
    unfold spec_earlier
    simp only
    omega)
  omega

/-- The value `get_date_diff` returns for two dates of 1970 or later whose
day numbers fit an `int`. -/
theorem get_date_diff_eq (d1 d2 : Date) (h1 : spec_valid d1) (h2 : spec_valid d2)
    (hy1 : 1970 ≤ d1.m_year) (hy1' : d1.m_year ≤ 2147483647)
    (hy2 : 1970 ≤ d2.m_year) (hy2' : d2.m_year ≤ 2147483647)
    (hr1 : -2147483648 ≤ day_number d2 - day_number d1)
    (hr2 : day_number d2 - day_number d1 ≤ 2147483647) :
    get_date_diff d1 d2 = some (day_number d2 - day_number d1) := by
  have hn1 := day_number_nonneg d1 h1 hy1
  have hn2 := day_number_nonneg d2 h2 hy2
  unfold get_date_diff
  simp only
  rw [mktime_of_date d1 h1.1 h1.2.1 (by omega) hy1', mktime_of_date d2 h2.1 h2.2.1 (by omega) hy2']
  have hcond : ¬ (day_number d1 * 86400 < 0 ∨ day_number d2 * 86400 < 0) := by omega
  rw [if_neg hcond]
  have e : day_number d2 * 86400 - day_number d1 * 86400
      = (day_number d2 - day_number d1) * (60 * 60 * 24) := by ring
  rw [e, Int.mul_tdiv_cancel _ (by decide), wrap32_of_range _ hr1 hr2]

/-- When either date lies before 1970 `get_date_diff` does not return. -/
theorem get_date_diff_before_1970 (d1 d2 : Date) (h1 : spec_valid d1) (h2 : spec_valid d2)
    (hy1 : -2147481748 ≤ d1.m_year) (hy1' : d1.m_year ≤ 2147483647)
    (hy2 : -2147481748 ≤ d2.m_year) (hy2' : d2.m_year ≤ 2147483647)
    (h : d1.m_year < 1970 ∨ d2.m_year < 1970) :
    get_date_diff d1 d2 = none := by
  unfold get_date_diff
  simp only
  rw [mktime_of_date d1 h1.1 h1.2.1 hy1 hy1', mktime_of_date d2 h2.1 h2.2.1 hy2 hy2']
  have hcond : day_number d1 * 86400 < 0 ∨ day_number d2 * 86400 < 0 := by
    rcases h with h | h
    · left
      have := year_ge_of_day_number_nonneg d1 h1
      omega
    · right
      have := year_ge_of_day_number_nonneg d2 h2
      omega
  rw [if_pos hcond]

/-! ## Lemmas on `date_cmp` and on parsing -/

/-- For years that are not negative the `int` subtractions of `date_cmp` stay
in range and its sign is the lexicographic order. -/
theorem date_cmp_sign (a b : Date) (ha : spec_valid a) (hb : spec_valid b)
    (hya : 0 ≤ a.m_year) (hya2 : a.m_year ≤ 2147483647)
    (hyb : 0 ≤ b.m_year) (hyb2 : b.m_year ≤ 2147483647) :
    (date_cmp a b < 0 ↔ spec_earlier a b) ∧ (date_cmp a b = 0 ↔ a = b) ∧
    (0 < date_cmp a b ↔ spec_earlier b a) := by
  obtain ⟨da, ma, ya⟩ := a
  obtain ⟨db, mb, yb⟩ := b
  have hda := spec_days_in_month_le ya ma
  have hdb := spec_days_in_month_le yb mb
  unfold spec_valid at ha hb
  unfold date_cmp spec_earlier
  simp only [Date.mk.injEq] at *
  rw [wrap32_of_range (ya - yb) (by omega) (by omega),
    wrap32_of_range (ma - mb) (by omega) (by omega),
    wrap32_of_range (da - db) (by omega) (by omega)]
  split_ifs <;> omega

theorem digits_value_stop (acc : Int) (c : Char) (cs : List Char) (h : isdigit c = false) :
    digits_value acc (c :: cs) = acc := by
  rw [digits_value, if_neg (by simp [h])]

/-- Where the text does not begin a decimal integer `atoi` returns 0. -/
theorem atoi_of_not_begins_integer (s : List Char) (h : begins_integer s = false) :
    atoi s = 0 := by
  unfold atoi strtol
  unfold begins_integer at h
  simp only
  generalize List.dropWhile isspace s = t at h ⊢
  cases t with
  | nil => decide
  | cons c cs =>
    simp only at h ⊢
    by_cases h45 : c.toNat = 45
    · rw [if_pos (Or.inl h45)] at h
      rw [if_pos h45]
      cases cs with
      | nil => decide
      | cons c2 cs2 =>
        simp only at h
        rw [digits_value_stop 0 c2 cs2 h]
        decide
    · by_cases h43 : c.toNat = 43
      · rw [if_pos (Or.inr h43)] at h
        rw [if_neg h45, if_pos h43]
        cases cs with
        | nil => decide
        | cons c2 cs2 =>
          simp only at h
          rw [digits_value_stop 0 c2 cs2 h]
          decide
      · rw [if_neg (by tauto)] at h
        rw [if_neg h45, if_neg h43, digits_value_stop 0 c cs h]
        decide

/-- For the months 1..11 the lookup reads inside the table: it yields the
length of the following month, between 28 and 31. -/
theorem M_DAYS_defined (y m : Int) (h1 : 1 ≤ m) (h11 : m ≤ 11) :
    ∃ n, M_DAYS y m = some n ∧ 28 ≤ n ∧ n ≤ 31 := by
  rw [M_DAYS_eq]
  have hm : m = 1 ∨ m = 2 ∨ m = 3 ∨ m = 4 ∨ m = 5 ∨ m = 6 ∨ m = 7 ∨ m = 8 ∨ m = 9 ∨
      m = 10 ∨ m = 11 := by omega
  rcases hm with h | h | h | h | h | h | h | h | h | h | h <;> subst h <;>
    split_ifs <;> exact ⟨_, rfl, by decide, by decide⟩

/-- For month 12 the lookup reads column 12 of a 12-entry row. -/
theorem M_DAYS_december (y : Int) : M_DAYS y 12 = none := by
  rw [M_DAYS_eq]
  split_ifs <;> rfl

/-- Whenever the lookup is not reached or stays inside the table, `set_date`
either returns NULL and leaves `*out` alone or returns `out` holding the
requested date. -/
theorem set_date_all_or_nothing (out : Date) (d m y : Int) (h : ¬ (m = 12 ∧ 1 ≤ d)) :
    set_date out d m y = some ⟨false, out⟩ ∨ set_date out d m y = some ⟨true, ⟨d, m, y⟩⟩ := by
  unfold set_date is_valid_date
  by_cases hm : m < 1 ∨ m > 12
  · rw [if_pos hm]; left; rfl
  · rw [if_neg hm]
    by_cases hd : d < 1
    · rw [if_pos hd]; left; rfl
    · rw [if_neg hd]
      obtain ⟨n, hn, -, -⟩ := M_DAYS_defined y m (by omega) (by omega)
      rw [hn]
      simp only
      by_cases hgt : d > n
      · rw [if_pos hgt]; left; rfl
      · rw [if_neg hgt]; right; rfl

/-- Where the table read is defined, `set_date` with a value `g` for reads
outside the table returns what `set_date` returns. -/
theorem set_date_mem_agrees (g : Int) (out : Date) (d m y : Int) :
    set_date out d m y = none ∨ set_date out d m y = some (set_date_mem g out d m y) := by
  unfold set_date set_date_mem is_valid_date is_valid_date_mem M_DAYS_mem
  by_cases hm : m < 1 ∨ m > 12
  · right; simp only [if_pos hm]; rfl
  · simp only [if_neg hm]
    by_cases hd : d < 1
    · right; simp only [if_pos hd, if_pos (Or.inl hd : d < 1 ∨ _)]; rfl
    · simp only [if_neg hd]
      cases hM : M_DAYS y m with
      | none => left; rfl
      | some n =>
        right
        simp only
        by_cases hgt : d > n
        · simp only [if_pos hgt, if_pos (Or.inr hgt : d < 1 ∨ d > n)]; rfl
        · have hno : ¬ (d < 1 ∨ d > n) := by omega
          simp only [if_neg hgt, if_neg hno]; rfl

/-- Whatever a read outside the table yields, `set_date` returns NULL and
leaves `*out` alone, or returns `out` holding the requested date. -/
theorem set_date_mem_all_or_nothing (g : Int) (out : Date) (d m y : Int) :
    set_date_mem g out d m y = ⟨false, out⟩ ∨ set_date_mem g out d m y = ⟨true, ⟨d, m, y⟩⟩ := by
  unfold set_date_mem
  by_cases h : is_valid_date_mem g d m y = 0
  · left; rw [if_pos h]
  · right; rw [if_neg h]

/-! ## Checked claims -/

/-- C1 (contradicted by the code): the claim says `set_date` accepts exactly
the Gregorian dates, so 31 January is accepted and 30 February and 31 April
are rejected.  The code reads column `m` of the table instead of column
`m - 1`: it rejects 31 January (leaving `*out` untouched), accepts
30 February and 31 April, and for December reads past the end of the row. -/
theorem C1_set_date_off_by_one_column (out : Date) :
    set_date out 31 1 2023 = some ⟨false, out⟩ ∧
    set_date out 30 2 2023 = some ⟨true, ⟨30, 2, 2023⟩⟩ ∧
    set_date out 31 4 2023 = some ⟨true, ⟨31, 4, 2023⟩⟩ ∧
    set_date out 31 12 2023 = none ∧
    spec_valid ⟨31, 1, 2023⟩ ∧ ¬ spec_valid ⟨30, 2, 2023⟩ ∧
    ¬ spec_valid ⟨31, 4, 2023⟩ ∧ spec_valid ⟨31, 12, 2023⟩ := by
  refine ⟨rfl, rfl, rfl, rfl, ?_, ?_, ?_, ?_⟩ <;> decide

/-- C2 (contradicted by the code): the claim says `set_date(out, 29, 2, y)`
succeeds only in leap years.  The code compares the day with column 2 of the
table, which holds 31 in both rows, so 29 February is accepted in every year,
2023 included. -/
theorem C2_set_date_29_february_every_year (out : Date) (y : Int) :
    set_date out 29 2 y = some ⟨true, ⟨29, 2, y⟩⟩ ∧ spec_is_leap 2023 = false := by
  refine ⟨?_, by decide⟩
  have hrow : M_DAYS y 2 = some 31 := by
    rw [M_DAYS_eq]
    split <;> rfl
  simp [set_date, is_valid_date, hrow]

/-- C3 (contradicted by the code): the claim says the lookup selects the leap
row exactly in Gregorian leap years, 2000 included.  After macro expansion the
row index is 0 (the common-year row) for 2000 and for every year divisible
by 400; for 2024, 1900 and 2023 the row agrees with the rule. -/
theorem C3_M_DAYS_row_2000_is_common_row :
    M_DAYS_row 2000 = 0 ∧ spec_is_leap 2000 = true ∧
    M_DAYS_row 2024 = 1 ∧ M_DAYS_row 1900 = 0 ∧ M_DAYS_row 2023 = 0 := by
  decide

/-- C4 (contradicted by the code): the claim says the sign of `date_cmp`
follows the lexicographic order for any year an `int` can hold.  The code
returns the `int` difference of the years: for the years -2147483648 and 1
the difference leaves the `int` range and the result is positive although the
first date is the earlier one. -/
theorem C4_date_cmp_year_difference_overflows :
    date_cmp ⟨1, 1, -2147483648⟩ ⟨1, 1, 1⟩ = 2147483647 ∧
    spec_earlier ⟨1, 1, -2147483648⟩ ⟨1, 1, 1⟩ ∧
    spec_valid ⟨1, 1, -2147483648⟩ ∧ spec_valid ⟨1, 1, 1⟩ := by
  decide

/-- C5 (contradicted by the code): the claim says `date_cmp` is antisymmetric
in sign and transitive on valid dates.  With the years -2147483648, 0 and
2147483647 the `int` subtraction wraps: `date_cmp a b` and `date_cmp b a` are
both negative, and `date_cmp a b < 0`, `date_cmp b c < 0` hold while
`date_cmp a c` is positive. -/
theorem C5_date_cmp_not_a_total_order :
    date_cmp ⟨1, 1, -2147483648⟩ ⟨1, 1, 0⟩ < 0 ∧
    date_cmp ⟨1, 1, 0⟩ ⟨1, 1, -2147483648⟩ < 0 ∧
    date_cmp ⟨1, 1, 0⟩ ⟨1, 1, 2147483647⟩ < 0 ∧
    date_cmp ⟨1, 1, -2147483648⟩ ⟨1, 1, 2147483647⟩ = 1 := by
  decide

/-- C8 (amended): for every valid date `a` whose year is at least -2147481748
(so that `year - 1900` is an `int`) and whose calendar successor has a year
that is an `int`, `n_days_after(out, a, 1)` is the calendar successor of
`a`. -/
theorem C8_n_days_after_one_is_successor (a : Date) (hv : spec_valid a)
    (hy1 : -2147481748 ≤ a.m_year) (hy2 : (spec_successor a).m_year ≤ 2147483647) :
    n_days_after a 1 = some (spec_successor a) := by
  have hs : civil_from_days (day_number a + 1) = spec_successor a := by
    rw [← day_number_successor a hv]
    exact civil_from_days_day_number _ (spec_successor_valid a hv)
  have hle : a.m_year ≤ (spec_successor a).m_year := by
    unfold spec_successor
    split_ifs <;> simp only <;> omega
  have h := n_days_after_eq a 1 hv.1 hv.2.1 hy1 (by omega) (by decide) (by decide)
    (by rw [hs]; omega) (by rw [hs]; exact hy2)
  rw [h, hs]

/-- C8, two instances: 28 February 2024 and 31 December 2023. -/
theorem C8_n_days_after_one_witness :
    (spec_valid ⟨28, 2, 2024⟩ ∧ spec_valid ⟨31, 12, 2023⟩) ∧
    n_days_after ⟨28, 2, 2024⟩ 1 = some (spec_successor ⟨28, 2, 2024⟩) ∧
    spec_successor ⟨28, 2, 2024⟩ = ⟨29, 2, 2024⟩ ∧
    n_days_after ⟨31, 12, 2023⟩ 1 = some ⟨1, 1, 2024⟩ :=
  ⟨by decide,
   C8_n_days_after_one_is_successor ⟨28, 2, 2024⟩ (by decide) (by decide) (by decide),
   by decide, by decide⟩

/-- C8 as stated fails at the ends of the `int` range: after 31 December
2147483647 the year written is -2147483648, and for 28 February -2147483500
(a common year) `year - 1900` wraps to a leap year and the date written is
29 February. -/
theorem C8_n_days_after_one_counterexample :
    spec_valid ⟨31, 12, 2147483647⟩ ∧
    n_days_after ⟨31, 12, 2147483647⟩ 1 = some ⟨1, 1, -2147483648⟩ ∧
    spec_successor ⟨31, 12, 2147483647⟩ = ⟨1, 1, 2147483648⟩ ∧
    spec_valid ⟨28, 2, -2147483500⟩ ∧
    n_days_after ⟨28, 2, -2147483500⟩ 1 = some ⟨29, 2, -2147483500⟩ ∧
    spec_successor ⟨28, 2, -2147483500⟩ = ⟨1, 3, -2147483500⟩ := by
  decide

/-- C9 (amended): for all valid dates `d1`, `d2` of the years 1970..5881579
`get_date_diff(d1, d2)` returns the number of days from `d1` to `d2`; it is
positive iff `d2` is after `d1` (iff `date_cmp(d1, d2) < 0`), zero iff the
dates are equal, negative iff `d2` is before `d1`. -/
theorem C9_get_date_diff_sign (d1 d2 : Date) (h1 : spec_valid d1) (h2 : spec_valid d2)
    (hy1 : 1970 ≤ d1.m_year) (hy1' : d1.m_year ≤ 5881579)
    (hy2 : 1970 ≤ d2.m_year) (hy2' : d2.m_year ≤ 5881579) :
    get_date_diff d1 d2 = some (day_number d2 - day_number d1) ∧
    (0 < day_number d2 - day_number d1 ↔ spec_earlier d1 d2) ∧
    (day_number d2 - day_number d1 = 0 ↔ d1 = d2) ∧
    (day_number d2 - day_number d1 < 0 ↔ spec_earlier d2 d1) ∧
    (0 < day_number d2 - day_number d1 ↔ date_cmp d1 d2 < 0) := by
  have hn1 := day_number_nonneg d1 h1 hy1
  have hn2 := day_number_nonneg d2 h2 hy2
  have e : day_number ⟨31, 12, 5881579⟩ = 2147483454 := by decide
  have hd1 := spec_days_in_month_le d1.m_year d1.m_month
  have hd2 := spec_days_in_month_le d2.m_year d2.m_month
  have hu1 := day_number_le_of_not_earlier d1 ⟨31, 12, 5881579⟩ h1 (by decide) (by
    unfold spec_valid at h1
    unfold spec_earlier
    simp only
    omega)
  have hu2 := day_number_le_of_not_earlier d2 ⟨31, 12, 5881579⟩ h2 (by decide) (by
    unfold spec_valid at h2
    unfold spec_earlier
    simp only
    omega)
  have hpos : 0 < day_number d2 - day_number d1 ↔ spec_earlier d1 d2 := by
    constructor
    · intro h
      rcases date_trichotomy d1 d2 with h3 | h3 | h3
      · rw [h3] at h; omega
      · exact h3
      · have := day_number_lt_of_earlier d2 d1 h2 h1 h3
        omega
    · intro h
      have := day_number_lt_of_earlier d1 d2 h1 h2 h
      omega
  have hneg : day_number d2 - day_number d1 < 0 ↔ spec_earlier d2 d1 := by
    constructor
    · intro h
      rcases date_trichotomy d1 d2 with h3 | h3 | h3
      · rw [h3] at h; omega
      · have := day_number_lt_of_earlier d1 d2 h1 h2 h3
        omega
      · exact h3
    · intro h
      have := day_number_lt_of_earlier d2 d1 h2 h1 h
      omega
  have hzero : day_number d2 - day_number d1 = 0 ↔ d1 = d2 := by
    constructor
    · intro h
      rcases date_trichotomy d1 d2 with h3 | h3 | h3
      · exact h3
      · have := day_number_lt_of_earlier d1 d2 h1 h2 h3
        omega
      · have := day_number_lt_of_earlier d2 d1 h2 h1 h3
        omega
    · intro h
      rw [h]; omega
  refine ⟨get_date_diff_eq d1 d2 h1 h2 hy1 (by omega) hy2 (by omega) (by omega) (by omega),
    hpos, hzero, hneg, ?_⟩
  rw [hpos]
  exact (date_cmp_sign d1 d2 h1 h2 (by omega) (by omega) (by omega) (by omega)).1.symm

/-- C9, an instance: from 1 January 1970 to 1 January 1980 there are 3652
days. -/
theorem C9_get_date_diff_witness :
    (spec_valid ⟨1, 1, 1970⟩ ∧ spec_valid ⟨1, 1, 1980⟩) ∧
    get_date_diff ⟨1, 1, 1970⟩ ⟨1, 1, 1980⟩
      = some (day_number ⟨1, 1, 1980⟩ - day_number ⟨1, 1, 1970⟩) ∧
    get_date_diff ⟨1, 1, 1970⟩ ⟨1, 1, 1980⟩ = some 3652 :=
  ⟨by decide,
   (C9_get_date_diff_sign ⟨1, 1, 1970⟩ ⟨1, 1, 1980⟩ (by decide) (by decide) (by decide)
     (by decide) (by decide) (by decide)).1,
   by decide⟩

/-- C9 as stated fails: for d1 = 1 January 1960 and d2 = 1 January 1980 the
instant of `d1` is negative and `get_date_diff` leaves through `exit(-1)`
instead of returning a count. -/
theorem C9_get_date_diff_counterexample :
    spec_valid ⟨1, 1, 1960⟩ ∧ spec_valid ⟨1, 1, 1980⟩ ∧
    mktime ⟨1, 0, 60⟩ = -315619200 ∧
    get_date_diff ⟨1, 1, 1960⟩ ⟨1, 1, 1980⟩ = none := by
  decide

/-- C11 (amended): for every string of at least 10 characters whose day
field or month field does not begin a decimal integer, `set_date_by_string`
returns NULL and leaves `*out` as it was; a year field that does not begin a
decimal integer is read as the year 0 and the call behaves as
`set_date(out, day, month, 0)`. -/
theorem C11_non_numeric_day_or_month_fails (out : Date) (str : List Char) (hlen : 10 ≤ str.length) :
    ((begins_integer str = false ∨ begins_integer (str.drop 3) = false) →
      set_date_by_string out str = some ⟨false, out⟩) ∧
    (begins_integer (str.drop 6) = false →
      set_date_by_string out str = set_date out (atoi str) (atoi (str.drop 3)) 0) := by
  have hl : ¬ str.length < 6 := by omega
  constructor
  · intro h
    unfold set_date_by_string
    rw [if_neg hl]
    simp only
    unfold set_date is_valid_date
    rcases h with h | h
    · rw [atoi_of_not_begins_integer _ h]
      split_ifs <;> first | rfl | omega
    · rw [atoi_of_not_begins_integer _ h]
      simp
  · intro h
    unfold set_date_by_string
    rw [if_neg hl, atoi_of_not_begins_integer _ h]

/-- C11, an instance: the day field of "ab-03-2003" is not numeric. -/
theorem C11_non_numeric_witness :
    ((10 : Nat) ≤ "ab-03-2003".toList.length ∧ begins_integer "ab-03-2003".toList = false) ∧
    set_date_by_string ⟨7, 7, 7⟩ "ab-03-2003".toList = some ⟨false, ⟨7, 7, 7⟩⟩ :=
  ⟨by decide,
   (C11_non_numeric_day_or_month_fails ⟨7, 7, 7⟩ "ab-03-2003".toList (by decide)).1
     (Or.inl (by decide))⟩

/-- C11 as stated fails: the year field of "05-03-abcd" is not numeric, yet
the call returns `out` and stores 5-3-0. -/
theorem C11_non_numeric_counterexample :
    begins_integer ("05-03-abcd".toList.drop 6) = false ∧
    "05-03-abcd".toList.length = 10 ∧
    set_date_by_string ⟨7, 7, 7⟩ "05-03-abcd".toList = some ⟨true, ⟨5, 3, 0⟩⟩ := by
  decide

/-- C13 (contradicted by the code): the claim says a mutator succeeds exactly
when the date it would produce is valid.  Through the column `m` of the table
`set_month(D, 2)` succeeds on day 30 and `set_year` turns 29 February 2024
into 29 February 2023, while `set_month_day` rejects 31 January. -/
theorem C13_mutators_accept_invalid_dates :
    spec_valid ⟨30, 3, 2023⟩ ∧
    set_month ⟨30, 3, 2023⟩ 2 = some ⟨true, ⟨30, 2, 2023⟩⟩ ∧ ¬ spec_valid ⟨30, 2, 2023⟩ ∧
    spec_valid ⟨29, 2, 2024⟩ ∧
    set_year ⟨29, 2, 2024⟩ 2023 = some ⟨true, ⟨29, 2, 2023⟩⟩ ∧ ¬ spec_valid ⟨29, 2, 2023⟩ ∧
    spec_valid ⟨1, 1, 2023⟩ ∧
    set_month_day ⟨1, 1, 2023⟩ 31 = some ⟨false, ⟨1, 1, 2023⟩⟩ ∧ spec_valid ⟨31, 1, 2023⟩ := by
  decide

/-- C14: `set_date`, `set_year`, `set_month` and `set_month_day` never leave
a Date partially updated.  For every prior state, every argument and every
value `g` that a read outside the table may yield, the call returns NULL with
the three fields unchanged, or returns the Date with exactly the requested
contents, which the accessors then return; and where the table read is
defined this is the outcome of `set_date`. -/
theorem C14_no_partial_update (g : Int) (out : Date) (d m y v : Int) :
    (set_date_mem g out d m y = ⟨false, out⟩ ∨
      set_date_mem g out d m y = ⟨true, ⟨d, m, y⟩⟩) ∧
    (set_year_mem g out v = ⟨false, out⟩ ∨
      set_year_mem g out v = ⟨true, ⟨out.m_mday, out.m_month, v⟩⟩) ∧
    (set_month_mem g out v = ⟨false, out⟩ ∨
      set_month_mem g out v = ⟨true, ⟨out.m_mday, v, out.m_year⟩⟩) ∧
    (set_month_day_mem g out v = ⟨false, out⟩ ∨
      set_month_day_mem g out v = ⟨true, ⟨v, out.m_month, out.m_year⟩⟩) ∧
    (get_month_day ⟨d, m, y⟩ = d ∧ get_month ⟨d, m, y⟩ = m ∧ get_year ⟨d, m, y⟩ = y) ∧
    (set_date out d m y = none ∨ set_date out d m y = some (set_date_mem g out d m y)) :=
  ⟨set_date_mem_all_or_nothing g out d m y,
   set_date_mem_all_or_nothing g out out.m_mday out.m_month v,
   set_date_mem_all_or_nothing g out out.m_mday v out.m_year,
   set_date_mem_all_or_nothing g out v out.m_month out.m_year,
   ⟨rfl, rfl, rfl⟩,
   set_date_mem_agrees g out d m y⟩

/-- C15 (contradicted by the code): the claim says the random date is always
valid and that 31 January is reachable.  The day is drawn below
`mdays_lookup[row][month]`, the length of the following month: with the
`rand()` values 0, 1, 29 the date is 30 February 1960, with month 12 the
table is read outside its row, and in January 1960 the day never exceeds
29. -/
theorem C15_random_date_invalid (r3 : Int) (h0 : 0 ≤ r3) :
    set_random_date_range 1960 2025 0 1 29 = Outcome.returned ⟨30, 2, 1960⟩ ∧
    ¬ spec_valid ⟨30, 2, 1960⟩ ∧
    set_random_date_range 1960 2025 0 11 0 = Outcome.undefined ∧
    set_random_date_range 1960 2025 0 0 r3 = Outcome.returned ⟨1 + r3 % 29, 1, 1960⟩ := by
  refine ⟨by decide, by decide, by decide, ?_⟩
  unfold set_random_date_range
  have e1 : wrap32 (2025 - 1960) = 65 := by decide
  have e2 : wrap32 (1960 + Int.tmod 0 65) = 1960 := by decide
  have e3 : wrap32 (1 + Int.tmod 0 12) = 1 := by decide
  have e4 : M_DAYS 1960 1 = some 29 := by decide
  simp only [e1, e2, e3, e4]
  rw [if_neg (by decide), if_neg (by decide), if_neg (by decide),
    Int.tmod_eq_emod h0 (by decide), wrap32_of_range _ (by omega) (by omega)]

/-- C15, an instance of the last part: the `rand()` value 30 gives
2 January 1960. -/
theorem C15_random_date_witness :
    (0 : Int) ≤ 30 ∧
    set_random_date_range 1960 2025 0 0 30 = Outcome.returned ⟨1 + 30 % 29, 1, 1960⟩ :=
  ⟨by decide, (C15_random_date_invalid 30 (by decide)).2.2.2⟩

/-- C16 (contradicted by the code): the claim says the call is defined for
`max_year == min_year` and returns that year.  The guard only exits for
`max_year - min_year < 0`; for equal years the code evaluates
`rand() % (max_year - min_year)`, a remainder by zero, whatever `rand()`
returns. -/
theorem C16_single_year_range_undefined (y r1 r2 r3 : Int) :
    set_random_date_range y y r1 r2 r3 = Outcome.undefined ∧
    set_random_date_range 1960 1960 r1 r2 r3 = Outcome.undefined := by
  have h : ∀ z : Int, set_random_date_range z z r1 r2 r3 = Outcome.undefined := by
    intro z
    unfold set_random_date_range
    have hz : wrap32 (z - z) = 0 := by
      rw [sub_self]; rfl
    rw [hz]
    rfl
  exact ⟨h y, h 1960⟩

/-- C18 (contradicted by the code): the claim says `get_weekday` is in 0..6
for every date `set_date` accepts.  `set_date` accepts 1 January of the year
-1; there the sum is negative, the C remainder is -1, and `print_date` reads
`wdays[-1]`. -/
theorem C18_get_weekday_negative :
    set_date ⟨0, 0, 0⟩ 1 1 (-1) = some ⟨true, ⟨1, 1, -1⟩⟩ ∧
    get_weekday ⟨1, 1, -1⟩ = some (-1) ∧
    print_date ⟨1, 1, -1⟩ = none := by
  decide

/-- C19 (contradicted by the code): the claim says `get_year_day` returns the
day of the year.  The code returns the year: 2024 for 1 January 2024, for
1 February 2024 and for 31 December 2024, whose days of the year are 1, 32
and 366. -/
theorem C19_get_year_day_returns_year (a : Date) :
    get_year_day a = a.m_year ∧
    get_year_day ⟨1, 1, 2024⟩ = 2024 ∧ spec_year_day ⟨1, 1, 2024⟩ = 1 ∧
    get_year_day ⟨1, 2, 2024⟩ = 2024 ∧ spec_year_day ⟨1, 2, 2024⟩ = 32 ∧
    get_year_day ⟨31, 12, 2024⟩ = 2024 ∧ spec_year_day ⟨31, 12, 2024⟩ = 366 := by
  refine ⟨rfl, ?_, ?_, ?_, ?_, ?_, ?_⟩ <;> decide

/-- C20 (contradicted by the code): the claim says the lookup stays inside
the table for every month 1..12.  The row index is 0 or 1, but the column
index is the month itself: for month 12 it is 12, outside the 12-entry row,
in every year, so `is_valid_date` has no defined result for a December day. -/
theorem C20_M_DAYS_december_out_of_bounds (y : Int) :
    M_DAYS_row y < 2 ∧ M_DAYS y 12 = none ∧ is_valid_date 1 12 y = none ∧
    M_DAYS 2023 12 = none := by
  refine ⟨M_DAYS_row_lt_two y, M_DAYS_december y, ?_, by decide⟩
  unfold is_valid_date
  rw [if_neg (by decide), if_neg (by decide), M_DAYS_december y]

end DateLib
